import Mathlib

/-!
# Verification of the kmhd2spotify sync engine

A shallow embedding, in Lean 4, of the core sync engine of the
`kmhd2spotify` repository: the weighted fuzzy catalog matcher
(`internal/search/fuzzy_song_searcher.go`), the feed ingestion parser and
its retrying fetch loop (`internal/api/kmhd.go`), the in-memory and
remote duplicate guards (`filterNewSongs`, `duplicate.CheckDuplicates`),
and the per-record sync loop (`syncSongsToSpotify`).

Conventions of the embedding:
* Go `float64` confidence arithmetic is embedded in `ℚ` (exact rational
  arithmetic; the spec's claims are stated "within floating-point
  tolerance", and the rational value is the ideal of the float program).
* Go strings are Lean `String`; `strings.TrimSpace` is `trimStr` (drop
  leading and trailing whitespace), `strings.ToLower` is `lowerStr`,
  `strings.Contains` is `containsStr`, and Go's byte-counting `len` is
  `String.utf8ByteSize`.
* The external `sahilm/fuzzy` scorer is an opaque-to-the-program
  parameter `FuzzyScorer` (the best score `fuzzy.Find` returns on the
  singleton candidate list, or `none` when it finds no match).
* External collaborators (Spotify search results, HTTP responses) are
  inputs to the embedded functions, so that each function is a pure
  function of the code's own control flow over those responses.
-/

/-! ## String normalization helpers (Go strings.TrimSpace / ToLower / Contains) -/

/-- Go `strings.TrimSpace`: remove leading and trailing whitespace.
Embedded over the character list: drop leading whitespace, then drop
trailing whitespace. -/
def trimChars (l : List Char) : List Char :=
  (l.dropWhile Char.isWhitespace).rdropWhile Char.isWhitespace

/-- `strings.TrimSpace` on `String`. -/
def trimStr (s : String) : String :=
  String.mk (trimChars s.data)

/-- Go `strings.ToLower` (restricted to the ASCII case mapping of
`Char.toLower`, which covers every string the claims quantify over). -/
def lowerStr (s : String) : String :=
  String.mk (s.data.map Char.toLower)

/-- The normalization `strings.ToLower(strings.TrimSpace(s))` applied by
`calculateMatchConfidence` to both of its arguments. -/
def normalizeStr (s : String) : String :=
  lowerStr (trimStr s)

/-- Go `strings.Contains s sub`: `sub` occurs as a contiguous substring
of `s`.  (Byte-level substring occurrence in valid UTF-8 coincides with
character-level infix occurrence, because UTF-8 is self-synchronizing.) -/
def containsStr (s sub : String) : Bool :=
  decide (sub.data <:+: s.data)

/-- Go byte-length `len(s)` of a string, as a rational (the matcher
immediately converts it to `float64`). -/
def byteLen (s : String) : ℚ :=
  (s.utf8ByteSize : ℚ)

/-! ## Catalog data model (`internal/types/types.go`) -/

/-- `types.Artist` (the `URI`/`Genres` metadata fields, unused by the
matcher, are omitted). -/
structure Artist where
  id : String
  name : String
deriving DecidableEq, Repr

/-- `types.Album` (the `Type` metadata field is omitted). -/
structure Album where
  id : String
  name : String
deriving DecidableEq, Repr

/-- `types.Track` (the `URI`/`Artists`/`Duration` metadata fields, unused
by the matcher and the sync loop, are omitted). -/
structure Track where
  id : String
  name : String
  album : Album
deriving DecidableEq, Repr

/-- `search.SongMatch`: a catalog match with its confidence breakdown. -/
structure SongMatch where
  artist : Artist
  track : Track
  artistQuery : String
  songQuery : String
  albumQuery : String
  artistConfidence : ℚ
  songConfidence : ℚ
  albumConfidence : ℚ
  overallConfidence : ℚ
deriving DecidableEq, Repr

/-- The external `sahilm/fuzzy` library, abstracted: given the normalized
query and the normalized candidate, the score of the best match that
`fuzzy.Find` reports, or `none` when it reports no matches. -/
def FuzzyScorer : Type :=
  String → String → Option Int

/-! ## The weighted fuzzy matcher (`internal/search/fuzzy_song_searcher.go`) -/

/-- `calculateMatchConfidence` (fuzzy_song_searcher.go:163–208): exact
match 1.0; candidate contains query `0.8 + ratio*0.2`; query contains
candidate `0.7 + ratio*0.2`; otherwise the fuzzy score normalized by
`2*len(query)`, scaled by `0.7` and clamped by the two sequential `if`s
of the source; `0.1` when the scorer finds nothing. -/
def calculateMatchConfidence (fz : FuzzyScorer) (query itemName : String) : ℚ :=
  let normalizedQuery := normalizeStr query
  let normalizedItem := normalizeStr itemName
  if normalizedQuery = normalizedItem then 1.0
  else if containsStr normalizedItem normalizedQuery then
    let ratio := byteLen normalizedQuery / byteLen normalizedItem
    0.8 + ratio * 0.2
  else if containsStr normalizedQuery normalizedItem then
    let ratio := byteLen normalizedItem / byteLen normalizedQuery
    0.7 + ratio * 0.2
  else
    match fz normalizedQuery normalizedItem with
    | some score =>
      let fuzzyScore : ℚ := (score : ℚ)
      let maxExpectedScore : ℚ := byteLen normalizedQuery * 2
      let confidence := fuzzyScore / maxExpectedScore * 0.7
      let confidence := if confidence > 0.7 then 0.7 else confidence
      let confidence := if confidence < 0.1 then 0.1 else confidence
      confidence
    | none => 0.1

/-- `calculateAlbumConfidence` (fuzzy_song_searcher.go:212–240): neutral
`0.5` for an empty/whitespace query or a missing/empty track album;
otherwise delegate to `calculateMatchConfidence`. -/
def calculateAlbumConfidence (fz : FuzzyScorer) (albumQuery : String)
    (track : Option Track) : ℚ :=
  if trimStr albumQuery = "" then 0.5
  else
    match track with
    | none => 0.5
    | some t =>
      if trimStr t.album.name = "" then 0.5
      else calculateMatchConfidence fz albumQuery t.album.name

/-- The running "best track" state of the selection loop of
`FindBestSongMatchWithAlbum` (fuzzy_song_searcher.go:102–118):
`bestTrack`, `bestSongConfidence`, `bestAlbumConfidence`,
`bestOverallConfidence`. -/
structure BestState where
  track : Track
  song : ℚ
  album : ℚ
  overall : ℚ
deriving DecidableEq, Repr

/-- The per-track candidate state the loop body computes:
`trackSongConfidence`, `trackAlbumConfidence` and
`trackOverallConfidence = artistConf*0.5 + song*0.35 + album*0.15`. -/
def mkCandidate (fz : FuzzyScorer) (artistConfidence : ℚ)
    (songQuery albumQuery : String) (t : Track) : BestState :=
  let songConfidence := calculateMatchConfidence fz songQuery t.name
  let albumConfidence := calculateAlbumConfidence fz albumQuery (some t)
  ⟨t, songConfidence, albumConfidence,
    artistConfidence * 0.5 + songConfidence * 0.35 + albumConfidence * 0.15⟩

/-- One iteration of the selection loop: replace the best state iff the
candidate's overall confidence is strictly greater. -/
def scoreStep (fz : FuzzyScorer) (artistConfidence : ℚ)
    (songQuery albumQuery : String) (st : BestState) (t : Track) : BestState :=
  let c := mkCandidate fz artistConfidence songQuery albumQuery t
  if c.overall > st.overall then c else st

/-- `FindBestSongMatchWithAlbum` (fuzzy_song_searcher.go:46–159), as a
function of the collaborator responses: `artist` is the result of
`SearchArtist` and `tracks` the result of `GetArtistTopTracks` (the
collaborator-error paths, which return an error before any confidence is
computed, are out of the embedded domain).  Returns `none` for an
empty/whitespace artist query or an empty track list; otherwise the
first-track shortcut for an empty/whitespace song query, or the
strict-improvement selection loop. -/
def findBestSongMatchWithAlbum (fz : FuzzyScorer)
    (artistQuery songQuery albumQuery : String)
    (artist : Artist) (tracks : List Track) : Option SongMatch :=
  if trimStr artistQuery = "" then none
  else
    let artistConfidence := calculateMatchConfidence fz artistQuery artist.name
    match tracks with
    | [] => none
    | t0 :: rest =>
      if trimStr songQuery = "" then
        let albumConfidence := calculateAlbumConfidence fz albumQuery (some t0)
        let overallConfidence :=
          artistConfidence * 0.5 + 1.0 * 0.35 + albumConfidence * 0.15
        some ⟨artist, t0, artistQuery, "", albumQuery,
          artistConfidence, 1.0, albumConfidence, overallConfidence⟩
      else
        let best := (rest).foldl
          (scoreStep fz artistConfidence songQuery albumQuery)
          (mkCandidate fz artistConfidence songQuery albumQuery t0)
        some ⟨artist, best.track, artistQuery, songQuery, albumQuery,
          artistConfidence, best.song, best.album, best.overall⟩

/-- The spec's per-candidate-track score (§4.2 step 4 together with the
§3 weighting formula): `0.5*artistConfidence + 0.35*songConfidence +
0.15*albumConfidence` with `songConfidence = matchConfidence(songQuery,
track.title)` and `albumConfidence = albumConfidence(albumQuery, track)`. -/
def trackScore (fz : FuzzyScorer) (artistConfidence : ℚ)
    (songQuery albumQuery : String) (t : Track) : ℚ :=
  0.5 * artistConfidence
    + 0.35 * calculateMatchConfidence fz songQuery t.name
    + 0.15 * calculateAlbumConfidence fz albumQuery (some t)

/-! ## Feed records (`internal/types/types.go`) and feed parsing (`internal/api/kmhd.go`) -/

/-- `types.Song`: a normalized feed record.  (`PlayedAt`, a wall-clock
timestamp never inspected by the claims, is omitted.) -/
structure Song where
  artist : String
  title : String
  album : String
  rawText : String
deriving DecidableEq, Repr

/-- `Song.IsValid` (types.go:139–141): artist and title non-empty
(whitespace-only strings count as non-empty). -/
def Song.isValid (s : Song) : Bool :=
  s.artist != "" && s.title != ""

/-- A raw feed entry, as seen by `parseTrackObject` (kmhd.go:260–299).
The three-stage unmarshal cascade (complete schema, minimal schema,
generic key-value fallback) extracts the same four string fields at every
stage, so the embedding keeps the extracted fields; `malformed` stands
for an entry no stage of the cascade can decode. -/
inductive RawTrack where
  | malformed
  | fields (artistName trackName collectionName startTime raw : String)
deriving DecidableEq, Repr

/-- `mapTrackToSong` (kmhd.go:302–326): trim the three name fields and
keep the raw JSON text.  (The timestamp-parsing tail of the function only
fills the omitted `PlayedAt` field.) -/
def mapTrackToSong (artistName trackName collectionName rawJSON : String) : Song :=
  { artist := trimStr artistName
    title := trimStr trackName
    album := trimStr collectionName
    rawText := rawJSON }

/-- `parseTrackObject` (kmhd.go:260–299): a decodable entry yields a song
exactly when its (untrimmed) artist and track names are non-empty;
otherwise the entry is an error, which `parseResponse` turns into a
skip. -/
def parseTrackObject : RawTrack → Option Song
  | .malformed => none
  | .fields artistName trackName collectionName _startTime raw =>
    if artistName ≠ "" ∧ trackName ≠ "" then
      some (mapTrackToSong artistName trackName collectionName raw)
    else none

/-- `parseResponse` (kmhd.go:233–257): per-entry parse errors are
skipped, and a parsed song is added only if `Song.IsValid` holds.  The
returned value is the `Songs` slice of the built collection, in feed
order. -/
def parseResponse (apiResponse : List RawTrack) : List Song :=
  (apiResponse.filterMap parseTrackObject).filter (·.isValid)

/-! ## The in-memory duplicate guard (`cmd` sync command, `filterNewSongs`) -/

/-- The dedup key `"artist - title"` used by `filterNewSongs`. -/
def seenKey (s : Song) : String :=
  s.artist ++ " - " ++ s.title

/-- `filterNewSongs` (sync command, lines 213–284), in state-passing
form: the cycle-local `seenSongs` map and the process-lifetime
`globalSeenSongs` map are lists of keys (Go stores `bool` / insertion
times; only membership is ever read).  Returns the new songs together
with both updated maps. -/
def filterNewSongs (songs : List Song) (seenSongs globalSeenSongs : List String) :
    List Song × List String × List String :=
  match songs with
  | [] => ([], seenSongs, globalSeenSongs)
  | song :: rest =>
    if ¬ song.isValid then
      filterNewSongs rest seenSongs globalSeenSongs
    else
      let songKey := seenKey song
      if songKey ∈ seenSongs then
        filterNewSongs rest seenSongs globalSeenSongs
      else if songKey ∈ globalSeenSongs then
        filterNewSongs rest seenSongs globalSeenSongs
      else
        let (newSongs, seen', global') :=
          filterNewSongs rest (songKey :: seenSongs) (songKey :: globalSeenSongs)
        (song :: newSongs, seen', global')

/-! ## The per-record sync loop (`syncSongsToSpotify`) -/

/-- The two ways a song leaves the per-song body of `syncSongsToSpotify`
(lines 287–383): counted as synced or counted as skipped. -/
inductive SyncResult where
  | synced
  | skipped
deriving DecidableEq, Repr

/-- The body of the `syncSongsToSpotify` loop for one song, as a function
of the three collaborator responses for that song: the matcher result,
the `CheckTracksInPlaylist` result and the `AddTracksToPlaylist` result.
Mirrors the source's early-`continue` structure: match error → skip; low
confidence (`< 0.5`) → skip; a failed duplicate check is ignored
("attempting to add anyway"); a reported duplicate → skip; add error →
skip; otherwise synced. -/
def syncSong (matchRes : Except String SongMatch)
    (checkRes : Except String (List Bool))
    (addRes : Except String Unit) : SyncResult :=
  match matchRes with
  | .error _ => .skipped
  | .ok songMatch =>
    if songMatch.overallConfidence < 0.5 then .skipped
    else
      let isDuplicate :=
        match checkRes with
        | .error _ => false
        | .ok existing => existing.headD false
      if isDuplicate then .skipped
      else
        match addRes with
        | .error _ => .skipped
        | .ok _ => .synced

/-- `syncSongsToSpotify` (lines 287–383), as the final
`(syncedCount, skippedCount)` tally: the loop walks every song of the
input in order, and each song's collaborator responses are given by the
three oracle functions. -/
def syncSongsToSpotify (songs : List Song)
    (matchOf : Song → Except String SongMatch)
    (checkOf : Song → Except String (List Bool))
    (addOf : Song → Except String Unit) : ℕ × ℕ :=
  songs.foldl
    (fun counts song =>
      match syncSong (matchOf song) (checkOf song) (addOf song) with
      | .synced => (counts.1 + 1, counts.2)
      | .skipped => (counts.1, counts.2 + 1))
    (0, 0)

/-! ## The retrying fetch loop (`FetchPlaylist`, kmhd.go:116–198) -/

/-- What one HTTP attempt of `FetchPlaylist` produces: a transport error
(`httpClient.Do` returned a non-nil error) or a response with a status
code. -/
inductive AttemptResult where
  | netError
  | status (code : ℕ)
deriving DecidableEq, Repr

/-- The retry condition of the loop (kmhd.go:126): an attempt is retried
when it failed with a network error or returned 502 (Bad Gateway) or 504
(Gateway Timeout); the loop breaks on anything else. -/
def isTransient : AttemptResult → Bool
  | .netError => true
  | .status code => code == 502 || code == 504

/-- `maxRetries` (kmhd.go:119). -/
def maxRetries : ℕ := 3

/-- The retry loop (kmhd.go:121–151) over a schedule of attempt numbers,
driven by an oracle giving each attempt's result.  Returns the number of
attempts issued, the backoff sleeps performed (in seconds,
`attempt * 2`), and the result of the last attempt.  On the last
scheduled attempt the loop exits without sleeping, matching
`attempt < maxRetries`. -/
def runAttempts (oracle : ℕ → AttemptResult) : List ℕ → ℕ × List ℕ × AttemptResult
  | [] => (0, [], .netError)
  | attempt :: rest =>
    let r := oracle attempt
    if isTransient r ∧ rest ≠ [] then
      let (n, waits, last) := runAttempts oracle rest
      (n + 1, attempt * 2 :: waits, last)
    else (1, [], r)

/-- The attempt numbers `1, 2, 3` the `for` loop of `FetchPlaylist`
iterates over (`for attempt := 1; attempt <= maxRetries; attempt++`). -/
def attemptSchedule : List ℕ := [1, 2, 3]

/-- The terminal errors of a `FetchPlaylist` call: exhausted transport
errors ("failed to make HTTP request after %d attempts") or a final
non-200 status ("API returned status %d"). -/
inductive FetchError where
  | network
  | httpStatus (code : ℕ)
deriving DecidableEq, Repr

/-- The fetch outcome of `FetchPlaylist` (kmhd.go:153–171): after the
retry loop, a remaining transport error or a non-200 status is terminal;
a 200 proceeds to JSON decoding (`Except.ok`, body parsing being a
separate stage). -/
def fetchPlaylistResult (oracle : ℕ → AttemptResult) : Except FetchError Unit :=
  let (_, _, last) := runAttempts oracle attemptSchedule
  match last with
  | .netError => .error .network
  | .status code => if code ≠ 200 then .error (.httpStatus code) else .ok ()

/-- Number of HTTP attempts a `FetchPlaylist` call issues. -/
def fetchAttemptCount (oracle : ℕ → AttemptResult) : ℕ :=
  (runAttempts oracle attemptSchedule).1

/-- The backoff sleeps (in seconds) a `FetchPlaylist` call performs. -/
def fetchWaits (oracle : ℕ → AttemptResult) : List ℕ :=
  (runAttempts oracle attemptSchedule).2.1

/-- The result of the last attempt a `FetchPlaylist` call issues. -/
def fetchLastResult (oracle : ℕ → AttemptResult) : AttemptResult :=
  (runAttempts oracle attemptSchedule).2.2

/-! ## The remote duplicate guard (`duplicate.CheckDuplicates`) -/

/-- `types.DuplicateResult` (the `LastAdded` wall-clock timestamp and the
`ArtistName` enrichment, untouched by the claims, are omitted). -/
structure DuplicateResult where
  hasDuplicates : Bool
  duplicateTracks : List Track
  message : String
deriving DecidableEq, Repr

/-- `DuplicateService.CheckDuplicates`, instrumented: the second
component counts calls to the destination service's
`CheckTracksInPlaylist` (the only remote call of the function).  The
empty-input fast path answers without consulting the service; otherwise
one batch call is made and the duplicates are the tracks whose membership
flag is set (the source's `i < len(tracks)` guard is the truncating
`zip`). -/
def checkDuplicates
    (checkTracksInPlaylist : String → List String → Except String (List Bool))
    (playlistID : String) (tracks : List Track) :
    Except String DuplicateResult × ℕ :=
  if tracks = [] then
    (.ok { hasDuplicates := false, duplicateTracks := [], message := "No tracks to check" }, 0)
  else
    let trackIDs := tracks.map (·.id)
    match checkTracksInPlaylist playlistID trackIDs with
    | .error _ => (.error "failed to check tracks in playlist", 1)
    | .ok existsResults =>
      let duplicateTracks :=
        (existsResults.zip tracks).filterMap
          (fun p => if p.1 then some p.2 else none)
      let duplicateTrackNames := duplicateTracks.map (·.name)
      if duplicateTracks = [] then
        (.ok { hasDuplicates := false, duplicateTracks := [],
               message := "No duplicate tracks found" }, 1)
      else
        (.ok { hasDuplicates := true, duplicateTracks := duplicateTracks,
               message := "Found " ++ toString duplicateTracks.length
                 ++ " duplicate track(s): "
                 ++ String.intercalate ", " duplicateTrackNames }, 1)

/-! ## Lemmas: trimming and normalization -/

lemma dropWhile_trimChars (l : List Char) :
    (trimChars l).dropWhile Char.isWhitespace = trimChars l := by
  rw [trimChars]
  set p := Char.isWhitespace with hp
  set m := l.dropWhile p with hm
  have hmself : m.dropWhile p = m := by
    rw [hm]
    exact List.dropWhile_idempotent p l
  have hpre := List.rdropWhile_prefix p m
  rw [List.dropWhile_eq_self_iff]
  intro hl
  rw [hpre.get_eq hl]
  exact List.dropWhile_eq_self_iff.mp hmself _

lemma trimChars_idem (l : List Char) :
    trimChars (trimChars l) = trimChars l := by
  have h1 : trimChars (trimChars l) =
      (trimChars l).rdropWhile Char.isWhitespace := by
    rw [trimChars, dropWhile_trimChars]
  rw [h1, trimChars, List.rdropWhile_idempotent]

lemma trimStr_idem (s : String) : trimStr (trimStr s) = trimStr s := by
  simp only [trimStr]
  rw [trimChars_idem]

lemma lowerStr_eq_empty_iff (s : String) : lowerStr s = "" ↔ s = "" := by
  obtain ⟨l⟩ := s
  constructor
  · intro h
    have hd : l.map Char.toLower = [] := congrArg String.data h
    have hl : l = [] := List.map_eq_nil_iff.mp hd
    exact congrArg String.mk hl
  · intro h
    have hl : l = [] := congrArg String.data h
    exact congrArg (fun l2 => lowerStr (String.mk l2)) hl

lemma normalizeStr_eq_empty_iff (s : String) :
    normalizeStr s = "" ↔ trimStr s = "" := by
  rw [normalizeStr, lowerStr_eq_empty_iff]

/-! ## Lemmas: the match-confidence cascade -/

lemma calculateMatchConfidence_of_norm_eq (fz : FuzzyScorer) {q c : String}
    (h : normalizeStr q = normalizeStr c) :
    calculateMatchConfidence fz q c = 1 := by
  rw [calculateMatchConfidence]
  simp only [h, if_pos rfl]
  norm_num

lemma calculateAlbumConfidence_of_norm_eq (fz : FuzzyScorer) {alq : String}
    (t : Track) (hne : trimStr alq ≠ "")
    (h : normalizeStr alq = normalizeStr t.album.name) :
    calculateAlbumConfidence fz alq (some t) = 1 := by
  have htne : trimStr t.album.name ≠ "" := by
    intro habs
    have : normalizeStr t.album.name = "" := (normalizeStr_eq_empty_iff _).mpr habs
    rw [← h] at this
    exact hne ((normalizeStr_eq_empty_iff _).mp this)
  rw [calculateAlbumConfidence]
  rw [if_neg hne]
  rw [if_neg htne]
  exact calculateMatchConfidence_of_norm_eq fz h

/-! ## Lemmas: the best-track selection loop -/

/-- Invariant of the selection loop after processing the prefix `done` of
the track list: the current best state belongs to `done`, is the
candidate state of its own track, strictly beats everything before it and
is not beaten by anything after it. -/
def goodState (fz : FuzzyScorer) (artistConfidence : ℚ)
    (songQuery albumQuery : String) (done : List Track) (st : BestState) : Prop :=
  ∃ pre post, done = pre ++ st.track :: post ∧
    st = mkCandidate fz artistConfidence songQuery albumQuery st.track ∧
    (∀ t ∈ pre,
      (mkCandidate fz artistConfidence songQuery albumQuery t).overall < st.overall) ∧
    (∀ t ∈ post,
      (mkCandidate fz artistConfidence songQuery albumQuery t).overall ≤ st.overall)

lemma goodState_step (fz : FuzzyScorer) (ac : ℚ) (sq alq : String)
    (done : List Track) (st : BestState) (t : Track)
    (h : goodState fz ac sq alq done st) :
    goodState fz ac sq alq (done ++ [t]) (scoreStep fz ac sq alq st t) := by
  obtain ⟨pre, post, hdone, hmk, hpre, hpost⟩ := h
  rw [scoreStep]
  by_cases hc : (mkCandidate fz ac sq alq t).overall > st.overall
  · rw [if_pos hc]
    refine ⟨done, [], by simp [mkCandidate], by simp [mkCandidate], ?_, by simp⟩
    intro u hu
    rw [hdone] at hu
    rcases List.mem_append.mp hu with hu1 | hu2
    · exact lt_trans (hpre u hu1) hc
    · rcases List.mem_cons.mp hu2 with hu3 | hu4
      · rw [hu3, ← hmk]
        exact hc
      · exact lt_of_le_of_lt (hpost u hu4) hc
  · rw [if_neg hc]
    refine ⟨pre, post ++ [t], by rw [hdone]; simp, hmk, hpre, ?_⟩
    intro u hu
    rcases List.mem_append.mp hu with hu1 | hu2
    · exact hpost u hu1
    · rcases List.mem_singleton.mp hu2 with rfl
      exact le_of_not_lt hc

lemma goodState_foldl (fz : FuzzyScorer) (ac : ℚ) (sq alq : String)
    (l : List Track) :
    ∀ (done : List Track) (st : BestState), goodState fz ac sq alq done st →
      goodState fz ac sq alq (done ++ l) (l.foldl (scoreStep fz ac sq alq) st) := by
  induction l with
  | nil => intro done st h; simpa using h
  | cons t l ih =>
    intro done st h
    have h2 := goodState_step fz ac sq alq done st t h
    have h3 := ih (done ++ [t]) (scoreStep fz ac sq alq st t) h2
    simpa [List.append_assoc] using h3

lemma goodState_run (fz : FuzzyScorer) (ac : ℚ) (sq alq : String)
    (t0 : Track) (rest : List Track) :
    goodState fz ac sq alq (t0 :: rest)
      (rest.foldl (scoreStep fz ac sq alq) (mkCandidate fz ac sq alq t0)) := by
  have h0 : goodState fz ac sq alq [t0] (mkCandidate fz ac sq alq t0) :=
    ⟨[], [], by simp [mkCandidate], by simp [mkCandidate], by simp, by simp⟩
  have := goodState_foldl fz ac sq alq rest [t0] (mkCandidate fz ac sq alq t0) h0
  simpa using this

/-- The per-track spec score coincides with the loop body's
`trackOverallConfidence`. -/
lemma trackScore_eq_overall (fz : FuzzyScorer) (ac : ℚ) (sq alq : String)
    (t : Track) :
    trackScore fz ac sq alq t = (mkCandidate fz ac sq alq t).overall := by
  rw [trackScore, mkCandidate]
  ring

/-! ## Lemmas: inversion of `findBestSongMatchWithAlbum` -/

/-- The `SongMatch` built from the final loop state. -/
def matchFromState (artistQuery songQuery albumQuery : String)
    (artist : Artist) (artistConfidence : ℚ) (st : BestState) : SongMatch :=
  ⟨artist, st.track, artistQuery, songQuery, albumQuery,
    artistConfidence, st.song, st.album, st.overall⟩

/-- The `SongMatch` built by the empty-song-query shortcut. -/
def matchFirstTrack (fz : FuzzyScorer) (artistQuery albumQuery : String)
    (artist : Artist) (artistConfidence : ℚ) (t0 : Track) : SongMatch :=
  let albumConfidence := calculateAlbumConfidence fz albumQuery (some t0)
  ⟨artist, t0, artistQuery, "", albumQuery, artistConfidence, 1.0, albumConfidence,
    artistConfidence * 0.5 + 1.0 * 0.35 + albumConfidence * 0.15⟩

lemma findBest_inv (fz : FuzzyScorer) (aq sq alq : String)
    (artist : Artist) (tracks : List Track) (m : SongMatch)
    (h : findBestSongMatchWithAlbum fz aq sq alq artist tracks = some m) :
    trimStr aq ≠ "" ∧ ∃ t0 rest, tracks = t0 :: rest ∧
      ((trimStr sq = "" ∧
          m = matchFirstTrack fz aq alq artist
            (calculateMatchConfidence fz aq artist.name) t0) ∨
        (trimStr sq ≠ "" ∧
          m = matchFromState aq sq alq artist
            (calculateMatchConfidence fz aq artist.name)
            (rest.foldl
              (scoreStep fz (calculateMatchConfidence fz aq artist.name) sq alq)
              (mkCandidate fz (calculateMatchConfidence fz aq artist.name) sq alq t0)))) := by
  by_cases haq : trimStr aq = ""
  · rw [findBestSongMatchWithAlbum, if_pos haq] at h
    exact absurd h (by simp)
  · refine ⟨haq, ?_⟩
    match tracks with
    | [] =>
      rw [findBestSongMatchWithAlbum, if_neg haq] at h
      exact absurd h (by simp)
    | t0 :: rest =>
      refine ⟨t0, rest, rfl, ?_⟩
      by_cases hsq : trimStr sq = ""
      · left
        refine ⟨hsq, ?_⟩
        simp only [findBestSongMatchWithAlbum, if_neg haq, if_pos hsq] at h
        have := Option.some.inj h
        rw [← this]
        rfl
      · right
        refine ⟨hsq, ?_⟩
        simp only [findBestSongMatchWithAlbum, if_neg haq, if_neg hsq] at h
        have := Option.some.inj h
        rw [← this]
        rfl

lemma mkCandidate_track (fz : FuzzyScorer) (ac : ℚ) (sq alq : String)
    (t : Track) : (mkCandidate fz ac sq alq t).track = t := rfl

lemma mkCandidate_overall (fz : FuzzyScorer) (ac : ℚ) (sq alq : String)
    (t : Track) :
    (mkCandidate fz ac sq alq t).overall =
      ac * 0.5 + calculateMatchConfidence fz sq t.name * 0.35 +
        calculateAlbumConfidence fz alq (some t) * 0.15 := rfl

lemma mkCandidate_song (fz : FuzzyScorer) (ac : ℚ) (sq alq : String)
    (t : Track) :
    (mkCandidate fz ac sq alq t).song = calculateMatchConfidence fz sq t.name := rfl

lemma mkCandidate_album (fz : FuzzyScorer) (ac : ℚ) (sq alq : String)
    (t : Track) :
    (mkCandidate fz ac sq alq t).album =
      calculateAlbumConfidence fz alq (some t) := rfl

lemma findBest_cons_first (fz : FuzzyScorer) (aq sq alq : String)
    (artist : Artist) (t0 : Track) (rest : List Track)
    (haq : trimStr aq ≠ "") (hsq : trimStr sq = "") :
    findBestSongMatchWithAlbum fz aq sq alq artist (t0 :: rest) =
      some (matchFirstTrack fz aq alq artist
        (calculateMatchConfidence fz aq artist.name) t0) := by
  simp only [findBestSongMatchWithAlbum, if_neg haq, if_pos hsq]
  rfl

lemma findBest_cons_loop (fz : FuzzyScorer) (aq sq alq : String)
    (artist : Artist) (t0 : Track) (rest : List Track)
    (haq : trimStr aq ≠ "") (hsq : trimStr sq ≠ "") :
    findBestSongMatchWithAlbum fz aq sq alq artist (t0 :: rest) =
      some (matchFromState aq sq alq artist
        (calculateMatchConfidence fz aq artist.name)
        (rest.foldl
          (scoreStep fz (calculateMatchConfidence fz aq artist.name) sq alq)
          (mkCandidate fz (calculateMatchConfidence fz aq artist.name) sq alq t0))) := by
  simp only [findBestSongMatchWithAlbum, if_neg haq, if_neg hsq]
  rfl

/-- A fuzzy scorer that reports no match on any input; used to
instantiate the abstract `sahilm/fuzzy` parameter on concrete runs whose
strings share no characters (on which the real library also reports no
match — though no combined branch below ever consults it). -/
def fzNone : FuzzyScorer := fun _ _ => none

/-- **C1.** Every match returned by the catalog matcher satisfies the
weighting law `overallConfidence = 0.5*artistConfidence +
0.35*songConfidence + 0.15*albumConfidence` (exactly, in the rational
embedding); in particular confidences `0.9 / 0.6 / 0.5` give an overall
confidence of `0.735`. -/
theorem c1_weighting_law (fz : FuzzyScorer) (aq sq alq : String)
    (artist : Artist) (tracks : List Track) (m : SongMatch)
    (h : findBestSongMatchWithAlbum fz aq sq alq artist tracks = some m) :
    m.overallConfidence =
      0.5 * m.artistConfidence + 0.35 * m.songConfidence + 0.15 * m.albumConfidence ∧
    (m.artistConfidence = 0.9 → m.songConfidence = 0.6 → m.albumConfidence = 0.5 →
      m.overallConfidence = 0.735) := by
  have hmain : m.overallConfidence =
      0.5 * m.artistConfidence + 0.35 * m.songConfidence + 0.15 * m.albumConfidence := by
    obtain ⟨haq, t0, rest, htr, hcase⟩ := findBest_inv fz aq sq alq artist tracks m h
    rcases hcase with ⟨hsq, hm⟩ | ⟨hsq, hm⟩
    · subst hm
      simp only [matchFirstTrack]
      ring
    · subst hm
      obtain ⟨pre, post, hsplit, hmk, hpre, hpost⟩ :=
        goodState_run fz (calculateMatchConfidence fz aq artist.name) sq alq t0 rest
      simp only [matchFromState]
      rw [hmk]
      simp only [mkCandidate]
      ring
  refine ⟨hmain, ?_⟩
  intro h9 h6 h5
  rw [hmain, h9, h6, h5]
  norm_num

/-- **C1 witness**: a concrete run of the matcher (exact artist and song,
no album information) in which the weighting law evaluates to
`1*0.5 + 1*0.35 + 0.5*0.15 = 0.925`. -/
theorem c1_weighting_law_witness :
    (0.925 : ℚ) = 0.5 * 1 + 0.35 * 1 + 0.15 * 0.5 := by
  have hac : calculateMatchConfidence fzNone "X" "X" = 1 :=
    calculateMatchConfidence_of_norm_eq _ rfl
  have hsc : calculateMatchConfidence fzNone "Y" "Y" = 1 :=
    calculateMatchConfidence_of_norm_eq _ rfl
  have hal : calculateAlbumConfidence fzNone ""
      (some ⟨"1", "Y", ⟨"al", ""⟩⟩) = 0.5 := by
    rw [calculateAlbumConfidence, if_pos (show trimStr "" = "" from rfl)]
  have h : findBestSongMatchWithAlbum fzNone "X" "Y" "" ⟨"a", "X"⟩
      [⟨"1", "Y", ⟨"al", ""⟩⟩] =
      some ⟨⟨"a", "X"⟩, ⟨"1", "Y", ⟨"al", ""⟩⟩, "X", "Y", "",
        1, 1, 0.5, 0.925⟩ := by
    rw [findBest_cons_loop fzNone "X" "Y" "" ⟨"a", "X"⟩ _ _ (by decide) (by decide)]
    simp only [List.foldl, matchFromState, mkCandidate]
    simp only [hac, hsc, hal]
    norm_num
  have hlaw := (c1_weighting_law fzNone "X" "Y" "" ⟨"a", "X"⟩
    [⟨"1", "Y", ⟨"al", ""⟩⟩] _ h).1
  simpa using hlaw

/-- Concrete run: exact artist and song, empty album query, album-less
track.  The album confidence is the neutral `0.5`, so the overall
confidence is `1*0.5 + 1*0.35 + 0.5*0.15 = 0.925`. -/
lemma findBest_XY_noalbum_eval :
    findBestSongMatchWithAlbum fzNone "X" "Y" "" ⟨"a", "X"⟩
      [⟨"1", "Y", ⟨"al", ""⟩⟩] =
      some ⟨⟨"a", "X"⟩, ⟨"1", "Y", ⟨"al", ""⟩⟩, "X", "Y", "",
        1, 1, 0.5, 0.925⟩ := by
  have hac : calculateMatchConfidence fzNone "X" "X" = 1 :=
    calculateMatchConfidence_of_norm_eq _ rfl
  have hsc : calculateMatchConfidence fzNone "Y" "Y" = 1 :=
    calculateMatchConfidence_of_norm_eq _ rfl
  have hal : calculateAlbumConfidence fzNone ""
      (some ⟨"1", "Y", ⟨"al", ""⟩⟩) = 0.5 := by
    rw [calculateAlbumConfidence, if_pos (show trimStr "" = "" from rfl)]
  rw [findBest_cons_loop fzNone "X" "Y" "" ⟨"a", "X"⟩ _ _ (by decide) (by decide)]
  simp only [List.foldl, matchFromState, mkCandidate]
  simp only [hac, hsc, hal]
  norm_num

/-- Concrete run: exact artist, song and album.  Every confidence is `1`
and the overall confidence is `1`. -/
lemma findBest_XYZ_eval :
    findBestSongMatchWithAlbum fzNone "X" "Y" "Z" ⟨"a", "X"⟩
      [⟨"1", "Y", ⟨"al", "Z"⟩⟩] =
      some ⟨⟨"a", "X"⟩, ⟨"1", "Y", ⟨"al", "Z"⟩⟩, "X", "Y", "Z",
        1, 1, 1, 1⟩ := by
  have hac : calculateMatchConfidence fzNone "X" "X" = 1 :=
    calculateMatchConfidence_of_norm_eq _ rfl
  have hsc : calculateMatchConfidence fzNone "Y" "Y" = 1 :=
    calculateMatchConfidence_of_norm_eq _ rfl
  have hal : calculateAlbumConfidence fzNone "Z"
      (some ⟨"1", "Y", ⟨"al", "Z"⟩⟩) = 1 :=
    calculateAlbumConfidence_of_norm_eq fzNone _ (by decide) rfl
  rw [findBest_cons_loop fzNone "X" "Y" "Z" ⟨"a", "X"⟩ _ _ (by decide) (by decide)]
  simp only [List.foldl, matchFromState, mkCandidate]
  simp only [hac, hsc, hal]
  norm_num

/-- **C6 counterexample.** The claim fails as stated: with an
empty-string album query and an album-less selected track, all three
query fields are trim-and-case-insensitively equal to the matched fields
(`"" = ""` after trimming), yet the overall confidence is `0.925`, not
`1.0`, because `calculateAlbumConfidence` answers the neutral `0.5`
before ever comparing the strings. -/
theorem c6_exact_match_cex :
    ∃ (fz : FuzzyScorer) (aq sq alq : String) (artist : Artist)
      (tracks : List Track) (m : SongMatch),
      findBestSongMatchWithAlbum fz aq sq alq artist tracks = some m ∧
      normalizeStr aq = normalizeStr m.artist.name ∧
      normalizeStr sq = normalizeStr m.track.name ∧
      normalizeStr alq = normalizeStr m.track.album.name ∧
      m.overallConfidence ≠ 1 := by
  refine ⟨fzNone, "X", "Y", "", ⟨"a", "X"⟩, [⟨"1", "Y", ⟨"al", ""⟩⟩],
    ⟨⟨"a", "X"⟩, ⟨"1", "Y", ⟨"al", ""⟩⟩, "X", "Y", "", 1, 1, 0.5, 0.925⟩,
    findBest_XY_noalbum_eval, rfl, rfl, rfl, ?_⟩
  norm_num

/-- **C6 (amended).** If the artist, song and album queries are each
equal — case-insensitively and after trimming — to the matched artist's
name, the selected track's title and the selected track's album name,
*and the album query is not empty or whitespace-only*, then the overall
confidence is exactly `1`. -/
theorem c6_exact_match_amended (fz : FuzzyScorer) (aq sq alq : String)
    (artist : Artist) (tracks : List Track) (m : SongMatch)
    (h : findBestSongMatchWithAlbum fz aq sq alq artist tracks = some m)
    (ha : normalizeStr aq = normalizeStr m.artist.name)
    (hs : normalizeStr sq = normalizeStr m.track.name)
    (hal : normalizeStr alq = normalizeStr m.track.album.name)
    (halq : trimStr alq ≠ "") :
    m.overallConfidence = 1 := by
  obtain ⟨haq, t0, rest, htr, hcase⟩ := findBest_inv fz aq sq alq artist tracks m h
  rcases hcase with ⟨hsq, hm⟩ | ⟨hsq, hm⟩
  · subst hm
    simp only [matchFirstTrack] at ha hal ⊢
    have hac : calculateMatchConfidence fz aq artist.name = 1 :=
      calculateMatchConfidence_of_norm_eq fz ha
    have halb : calculateAlbumConfidence fz alq (some t0) = 1 :=
      calculateAlbumConfidence_of_norm_eq fz t0 halq hal
    rw [hac, halb]
    norm_num
  · subst hm
    obtain ⟨pre, post, hsplit, hmk, hpre, hpost⟩ :=
      goodState_run fz (calculateMatchConfidence fz aq artist.name) sq alq t0 rest
    simp only [matchFromState] at ha hs hal ⊢
    generalize hb : List.foldl
      (scoreStep fz (calculateMatchConfidence fz aq artist.name) sq alq)
      (mkCandidate fz (calculateMatchConfidence fz aq artist.name) sq alq t0)
      rest = b at hs hal hmk ⊢
    have hov := congrArg BestState.overall hmk
    rw [hov, mkCandidate_overall]
    rw [calculateMatchConfidence_of_norm_eq fz ha,
      calculateMatchConfidence_of_norm_eq fz hs,
      calculateAlbumConfidence_of_norm_eq fz b.track halq hal]
    norm_num

/-- **C6 witness**: an exact artist/song/album run (non-empty album
query) whose overall confidence the amended theorem pins to `1`. -/
theorem c6_exact_match_amended_witness :
    trimStr "Z" ≠ "" ∧
    (⟨⟨"a", "X"⟩, ⟨"1", "Y", ⟨"al", "Z"⟩⟩, "X", "Y", "Z",
      1, 1, 1, 1⟩ : SongMatch).overallConfidence = 1 :=
  ⟨by decide,
    c6_exact_match_amended fzNone "X" "Y" "Z" ⟨"a", "X"⟩
      [⟨"1", "Y", ⟨"al", "Z"⟩⟩] _ findBest_XYZ_eval rfl rfl rfl (by decide)⟩

/-- **C7 counterexample.** The claim fails for a non-empty but
whitespace-only song query: the code's `strings.TrimSpace(songQuery) ==
""` shortcut returns the *first* track with a perfect song confidence
instead of scoring the candidates, so a later track with a strictly
higher per-track score is passed over. -/
theorem c7_argmax_cex :
    ∃ (fz : FuzzyScorer) (aq sq alq : String) (artist : Artist)
      (tracks : List Track) (m : SongMatch) (t : Track),
      sq ≠ "" ∧ tracks ≠ [] ∧
      findBestSongMatchWithAlbum fz aq sq alq artist tracks = some m ∧
      t ∈ tracks ∧
      m.overallConfidence < trackScore fz m.artistConfidence sq alq t := by
  have hac : calculateMatchConfidence fzNone "X" "X" = 1 :=
    calculateMatchConfidence_of_norm_eq _ rfl
  have halb0 : calculateAlbumConfidence fzNone "Q"
      (some ⟨"1", "A", ⟨"a0", ""⟩⟩) = 0.5 := by
    rw [calculateAlbumConfidence, if_neg (by decide : ¬ trimStr "Q" = "")]
    rw [if_pos (show trimStr (⟨"1", "A", ⟨"a0", ""⟩⟩ : Track).album.name = "" from rfl)]
  have hm : findBestSongMatchWithAlbum fzNone "X" " " "Q" ⟨"a", "X"⟩
      [⟨"1", "A", ⟨"a0", ""⟩⟩, ⟨"2", "A", ⟨"a1", "Q"⟩⟩] =
      some ⟨⟨"a", "X"⟩, ⟨"1", "A", ⟨"a0", ""⟩⟩, "X", "", "Q",
        1, 1, 0.5, 0.925⟩ := by
    rw [findBest_cons_first fzNone "X" " " "Q" ⟨"a", "X"⟩ _ _ (by decide) (by decide)]
    simp only [matchFirstTrack]
    simp only [hac, halb0]
    norm_num
  have hsc1 : calculateMatchConfidence fzNone " " "A" = 0.8 := by
    rw [calculateMatchConfidence]
    rw [if_neg (by decide : ¬ normalizeStr " " = normalizeStr "A")]
    rw [if_pos (show (containsStr (normalizeStr "A") (normalizeStr " ") : Prop) from by decide)]
    rw [show normalizeStr " " = "" from rfl, show normalizeStr "A" = "a" from rfl]
    rw [show byteLen "" = 0 from by
      rw [byteLen, show String.utf8ByteSize "" = 0 from rfl]; norm_num]
    norm_num
  have halb1 : calculateAlbumConfidence fzNone "Q"
      (some ⟨"2", "A", ⟨"a1", "Q"⟩⟩) = 1 :=
    calculateAlbumConfidence_of_norm_eq fzNone _ (by decide) rfl
  have hts : trackScore fzNone 1 " " "Q" ⟨"2", "A", ⟨"a1", "Q"⟩⟩ = 0.93 := by
    rw [trackScore, hsc1, halb1]
    norm_num
  refine ⟨fzNone, "X", " ", "Q", ⟨"a", "X"⟩,
    [⟨"1", "A", ⟨"a0", ""⟩⟩, ⟨"2", "A", ⟨"a1", "Q"⟩⟩],
    ⟨⟨"a", "X"⟩, ⟨"1", "A", ⟨"a0", ""⟩⟩, "X", "", "Q", 1, 1, 0.5, 0.925⟩,
    ⟨"2", "A", ⟨"a1", "Q"⟩⟩, by decide, by decide, hm, by decide, ?_⟩
  show (0.925 : ℚ) < trackScore fzNone 1 " " "Q" ⟨"2", "A", ⟨"a1", "Q"⟩⟩
  rw [hts]
  norm_num

/-- **C7 (amended).** When the song query is non-empty *after trimming*
(whitespace-only song queries take the first-track shortcut instead) and
the matcher returns a match, the selected track is the first track of
the candidate list attaining the maximal per-track score
`0.5*artistConfidence + 0.35*songConfidence + 0.15*albumConfidence`:
every earlier candidate scores strictly lower, the selected track's
score is the returned overall confidence, and no candidate scores
higher. -/
theorem c7_argmax_amended (fz : FuzzyScorer) (aq sq alq : String)
    (artist : Artist) (tracks : List Track) (m : SongMatch)
    (hsq : trimStr sq ≠ "")
    (h : findBestSongMatchWithAlbum fz aq sq alq artist tracks = some m) :
    ∃ pre post, tracks = pre ++ m.track :: post ∧
      trackScore fz m.artistConfidence sq alq m.track = m.overallConfidence ∧
      (∀ t ∈ pre, trackScore fz m.artistConfidence sq alq t < m.overallConfidence) ∧
      (∀ t ∈ post, trackScore fz m.artistConfidence sq alq t ≤ m.overallConfidence) := by
  obtain ⟨haq, t0, rest, htr, hcase⟩ := findBest_inv fz aq sq alq artist tracks m h
  rcases hcase with ⟨hsq2, _⟩ | ⟨_, hm⟩
  · exact absurd hsq2 hsq
  · subst hm
    subst htr
    obtain ⟨pre, post, hsplit, hmk, hpre, hpost⟩ :=
      goodState_run fz (calculateMatchConfidence fz aq artist.name) sq alq t0 rest
    simp only [matchFromState]
    generalize hb : List.foldl
      (scoreStep fz (calculateMatchConfidence fz aq artist.name) sq alq)
      (mkCandidate fz (calculateMatchConfidence fz aq artist.name) sq alq t0)
      rest = b at hsplit hmk hpre hpost ⊢
    refine ⟨pre, post, hsplit, ?_, ?_, ?_⟩
    · rw [trackScore_eq_overall, ← congrArg BestState.overall hmk]
    · intro t ht
      rw [trackScore_eq_overall]
      exact hpre t ht
    · intro t ht
      rw [trackScore_eq_overall]
      exact hpost t ht

/-- **C7 witness**: a single-candidate run with a non-whitespace song
query; the returned track trivially decomposes the list and attains the
maximal (and only) per-track score `0.925`. -/
theorem c7_argmax_amended_witness :
    ∃ pre post,
      ([⟨"1", "Y", ⟨"al", ""⟩⟩] : List Track) =
        pre ++ (⟨"1", "Y", ⟨"al", ""⟩⟩ : Track) :: post ∧
      trackScore fzNone 1 "Y" "" ⟨"1", "Y", ⟨"al", ""⟩⟩ = 0.925 ∧
      (∀ t ∈ pre, trackScore fzNone 1 "Y" "" t < (0.925 : ℚ)) ∧
      (∀ t ∈ post, trackScore fzNone 1 "Y" "" t ≤ (0.925 : ℚ)) :=
  c7_argmax_amended fzNone "X" "Y" "" ⟨"a", "X"⟩ [⟨"1", "Y", ⟨"al", ""⟩⟩]
    ⟨⟨"a", "X"⟩, ⟨"1", "Y", ⟨"al", ""⟩⟩, "X", "Y", "", 1, 1, 0.5, 0.925⟩
    (by decide) findBest_XY_noalbum_eval

/-- **C5.** The full `calculateMatchConfidence` cascade, for all query
and candidate strings (both normalized by lowercasing and trimming):
exact equality gives `1`; candidate-contains-query gives
`0.8 + 0.2*(len q / len c)`; query-contains-candidate gives
`0.7 + 0.2*(len c / len q)`; otherwise the fuzzy score is normalized by
`2*len q`, scaled by `0.7` and clamped into `[0.1, 0.7]`, and a fuzzy
miss gives `0.1`. -/
theorem c5_match_confidence_cascade (fz : FuzzyScorer) (query candidate : String) :
    (normalizeStr query = normalizeStr candidate →
      calculateMatchConfidence fz query candidate = 1) ∧
    (normalizeStr query ≠ normalizeStr candidate →
      containsStr (normalizeStr candidate) (normalizeStr query) = true →
      calculateMatchConfidence fz query candidate =
        0.8 + 0.2 * (byteLen (normalizeStr query) / byteLen (normalizeStr candidate))) ∧
    (normalizeStr query ≠ normalizeStr candidate →
      containsStr (normalizeStr candidate) (normalizeStr query) = false →
      containsStr (normalizeStr query) (normalizeStr candidate) = true →
      calculateMatchConfidence fz query candidate =
        0.7 + 0.2 * (byteLen (normalizeStr candidate) / byteLen (normalizeStr query))) ∧
    (normalizeStr query ≠ normalizeStr candidate →
      containsStr (normalizeStr candidate) (normalizeStr query) = false →
      containsStr (normalizeStr query) (normalizeStr candidate) = false →
      (∀ score : Int, fz (normalizeStr query) (normalizeStr candidate) = some score →
        calculateMatchConfidence fz query candidate =
          max 0.1 (min 0.7 ((score : ℚ) / (byteLen (normalizeStr query) * 2) * 0.7))) ∧
      (fz (normalizeStr query) (normalizeStr candidate) = none →
        calculateMatchConfidence fz query candidate = 0.1)) := by
  refine ⟨?_, ?_, ?_, ?_⟩
  · intro h
    exact calculateMatchConfidence_of_norm_eq fz h
  · intro hne hcon
    rw [calculateMatchConfidence]
    rw [if_neg hne, if_pos hcon]
    ring
  · intro hne hcon1 hcon2
    rw [calculateMatchConfidence]
    rw [if_neg hne, if_neg (by simp [hcon1]), if_pos hcon2]
    ring
  · intro hne hcon1 hcon2
    constructor
    · intro score hscore
      rw [calculateMatchConfidence]
      rw [if_neg hne, if_neg (by simp [hcon1]), if_neg (by simp [hcon2]), hscore]
      dsimp only
      set x : ℚ := (score : ℚ) / (byteLen (normalizeStr query) * 2) * 0.7 with hx
      rcases le_or_lt x 0.7 with h1 | h1
      · rw [if_neg (not_lt.mpr h1)]
        rcases lt_or_le x 0.1 with h2 | h2
        · rw [if_pos h2]
          rw [min_eq_right h1, max_eq_left (le_of_lt h2)]
        · rw [if_neg (not_lt.mpr h2)]
          rw [min_eq_right h1, max_eq_right h2]
      · rw [if_pos h1]
        rw [if_neg (by norm_num)]
        rw [min_eq_left (le_of_lt h1)]
        rw [max_eq_right (by norm_num)]
    · intro hnone
      rw [calculateMatchConfidence]
      rw [if_neg hne, if_neg (by simp [hcon1]), if_neg (by simp [hcon2]), hnone]

/-- **C5 witness**: `"ab"` against `"xaby"` lands in the
candidate-contains-query branch and evaluates to
`0.8 + 0.2*(2/4) = 0.9`. -/
theorem c5_match_confidence_cascade_witness :
    calculateMatchConfidence fzNone "ab" "xaby" = 0.9 := by
  have h := (c5_match_confidence_cascade fzNone "ab" "xaby").2.1 (by decide) (by decide)
  rw [h]
  rw [show normalizeStr "ab" = "ab" from rfl,
    show normalizeStr "xaby" = "xaby" from rfl]
  rw [show byteLen "ab" = 2 from by
    rw [byteLen]; norm_num [show String.utf8ByteSize "ab" = 2 from rfl]]
  rw [show byteLen "xaby" = 4 from by
    rw [byteLen]; norm_num [show String.utf8ByteSize "xaby" = 4 from rfl]]
  norm_num

/-- **C8.** `calculateAlbumConfidence` is the neutral `0.5` exactly when
the album query is empty/whitespace-only, the track is absent, or the
track's album name is empty/whitespace-only; in every other case it
delegates to `calculateMatchConfidence` on the album query and the
track's album name. -/
theorem c8_album_neutral (fz : FuzzyScorer) (albumQuery : String)
    (track : Option Track) :
    ((trimStr albumQuery = "" ∨ track = none ∨
        (∃ t, track = some t ∧ trimStr t.album.name = "")) →
      calculateAlbumConfidence fz albumQuery track = 0.5) ∧
    (∀ t, track = some t → trimStr albumQuery ≠ "" → trimStr t.album.name ≠ "" →
      calculateAlbumConfidence fz albumQuery track =
        calculateMatchConfidence fz albumQuery t.album.name) := by
  constructor
  · intro hcase
    rcases hcase with hq | htr | ⟨t, htr, htalb⟩
    · simp only [calculateAlbumConfidence, if_pos hq]
    · subst htr
      simp only [calculateAlbumConfidence]
      split_ifs <;> rfl
    · subst htr
      simp only [calculateAlbumConfidence]
      by_cases hq : trimStr albumQuery = ""
      · rw [if_pos hq]
      · rw [if_neg hq]
        simp only [if_pos htalb]
  · intro t htr hq htalb
    subst htr
    rw [calculateAlbumConfidence, if_neg hq]
    simp only [if_neg htalb]

/-- **C8 witness**: an empty album query is neutral (`0.5`) even with a
real album on the track, and a non-empty query against a track with a
non-empty album delegates to the string matcher. -/
theorem c8_album_neutral_witness :
    calculateAlbumConfidence fzNone "" (some ⟨"1", "A", ⟨"a1", "B"⟩⟩) = 0.5 ∧
    calculateAlbumConfidence fzNone "Q" (some ⟨"1", "A", ⟨"a1", "B"⟩⟩) =
      calculateMatchConfidence fzNone "Q" "B" :=
  ⟨(c8_album_neutral fzNone "" (some ⟨"1", "A", ⟨"a1", "B"⟩⟩)).1
      (Or.inl (by decide)),
    (c8_album_neutral fzNone "Q" (some ⟨"1", "A", ⟨"a1", "B"⟩⟩)).2
      ⟨"1", "A", ⟨"a1", "B"⟩⟩ rfl (by decide) (by decide)⟩

/-- **C9.** For every playlist id (and any behavior of the destination
service), checking duplicates for an empty track list succeeds with
`hasDuplicates = false` and message `"No tracks to check"`, and performs
zero calls to `CheckTracksInPlaylist`. -/
theorem c9_empty_duplicate_check (playlistID : String)
    (checkTracksInPlaylist : String → List String → Except String (List Bool)) :
    checkDuplicates checkTracksInPlaylist playlistID [] =
      (.ok { hasDuplicates := false, duplicateTracks := [],
             message := "No tracks to check" }, 0) := by
  rfl

lemma syncSongsToSpotify_foldl (songs : List Song)
    (matchOf : Song → Except String SongMatch)
    (checkOf : Song → Except String (List Bool))
    (addOf : Song → Except String Unit) :
    ∀ a b : ℕ,
      songs.foldl
        (fun counts song =>
          match syncSong (matchOf song) (checkOf song) (addOf song) with
          | .synced => (counts.1 + 1, counts.2)
          | .skipped => (counts.1, counts.2 + 1))
        (a, b) =
      (a + songs.countP
          (fun s => syncSong (matchOf s) (checkOf s) (addOf s) = .synced),
        b + songs.countP
          (fun s => syncSong (matchOf s) (checkOf s) (addOf s) = .skipped)) := by
  induction songs with
  | nil => intro a b; simp
  | cons s rest ih =>
    intro a b
    rcases hres : syncSong (matchOf s) (checkOf s) (addOf s) with _ | _
    · simp only [List.foldl_cons, hres, List.countP_cons, hres]
      rw [ih (a + 1) b]
      simp [hres]
      omega
    · simp only [List.foldl_cons, hres, List.countP_cons, hres]
      rw [ih a (b + 1)]
      simp [hres]
      omega

lemma countP_sync_split (songs : List Song)
    (matchOf : Song → Except String SongMatch)
    (checkOf : Song → Except String (List Bool))
    (addOf : Song → Except String Unit) :
    songs.countP (fun s => syncSong (matchOf s) (checkOf s) (addOf s) = .synced) +
      songs.countP (fun s => syncSong (matchOf s) (checkOf s) (addOf s) = .skipped) =
      songs.length := by
  induction songs with
  | nil => simp
  | cons s rest ih =>
    rcases hres : syncSong (matchOf s) (checkOf s) (addOf s) with _ | _ <;>
      simp [List.countP_cons, hres] <;> omega

/-- **C4.** The sync loop attempts every song of its input: the counts
it reports are exactly the number of songs whose per-song body ends in
`synced` / in `skipped` (so a per-song failure — match error, low
confidence, duplicate, or write error — affects only that song's tally),
and `syncedCount + skippedCount` equals the number of input songs: no
per-song error terminates the loop early. -/
theorem c4_per_song_isolation (songs : List Song)
    (matchOf : Song → Except String SongMatch)
    (checkOf : Song → Except String (List Bool))
    (addOf : Song → Except String Unit) :
    (syncSongsToSpotify songs matchOf checkOf addOf).1 =
      songs.countP
        (fun s => syncSong (matchOf s) (checkOf s) (addOf s) = .synced) ∧
    (syncSongsToSpotify songs matchOf checkOf addOf).2 =
      songs.countP
        (fun s => syncSong (matchOf s) (checkOf s) (addOf s) = .skipped) ∧
    (syncSongsToSpotify songs matchOf checkOf addOf).1 +
        (syncSongsToSpotify songs matchOf checkOf addOf).2 = songs.length := by
  have he : syncSongsToSpotify songs matchOf checkOf addOf =
      (songs.countP (fun s => syncSong (matchOf s) (checkOf s) (addOf s) = .synced),
        songs.countP (fun s => syncSong (matchOf s) (checkOf s) (addOf s) = .skipped)) := by
    rw [syncSongsToSpotify]
    rw [syncSongsToSpotify_foldl songs matchOf checkOf addOf 0 0]
    simp
  refine ⟨by rw [he], by rw [he], ?_⟩
  rw [he]
  exact countP_sync_split songs matchOf checkOf addOf

lemma runAttempts_single (oracle : ℕ → AttemptResult) (a : ℕ) :
    runAttempts oracle [a] = (1, [], oracle a) := by
  rw [runAttempts]
  rw [if_neg (by simp)]

lemma runAttempts_cons_stop (oracle : ℕ → AttemptResult) (a : ℕ) (rest : List ℕ)
    (h : isTransient (oracle a) = false) :
    runAttempts oracle (a :: rest) = (1, [], oracle a) := by
  rw [runAttempts]
  rw [if_neg (by simp [h])]

lemma runAttempts_cons_retry (oracle : ℕ → AttemptResult) (a b : ℕ) (rest : List ℕ)
    (h : isTransient (oracle a) = true) :
    runAttempts oracle (a :: b :: rest) =
      ((runAttempts oracle (b :: rest)).1 + 1,
        a * 2 :: (runAttempts oracle (b :: rest)).2.1,
        (runAttempts oracle (b :: rest)).2.2) := by
  rw [runAttempts]
  rw [if_pos (by simp [h])]

/-- **C3.** Each `FetchPlaylist` call issues at most 3 HTTP attempts;
every non-final attempt was a transient failure (network error, 502 or
504) — the loop retries on nothing else; the backoff sleeps are exactly
2 s after a first failed attempt and 4 s after a second; a 200 response
on whichever attempt the loop stops at (hence on or before the 3rd) is
accepted; three consecutive transient failures end in a terminal fetch
error, and so does any other final non-200 status. -/
theorem c3_fetch_retry_budget (oracle : ℕ → AttemptResult) :
    fetchAttemptCount oracle ≤ 3 ∧
    (∀ i, 1 ≤ i → i < fetchAttemptCount oracle → isTransient (oracle i) = true) ∧
    fetchWaits oracle = List.take (fetchAttemptCount oracle - 1) [2, 4] ∧
    fetchLastResult oracle = oracle (fetchAttemptCount oracle) ∧
    (oracle (fetchAttemptCount oracle) = .status 200 →
      fetchPlaylistResult oracle = .ok ()) ∧
    ((isTransient (oracle 1) = true ∧ isTransient (oracle 2) = true ∧
        isTransient (oracle 3) = true) →
      ∃ e, fetchPlaylistResult oracle = .error e) ∧
    (∀ code, fetchLastResult oracle = .status code → code ≠ 200 →
      fetchPlaylistResult oracle = .error (.httpStatus code)) := by
  have hmatch : ∀ n : ℕ, ∀ e : runAttempts oracle attemptSchedule =
      (n, (runAttempts oracle attemptSchedule).2.1, oracle n),
      (oracle n = .status 200 → fetchPlaylistResult oracle = .ok ()) ∧
      (∀ code, oracle n = .status code → code ≠ 200 →
        fetchPlaylistResult oracle = .error (.httpStatus code)) := by
    intro n e
    constructor
    · intro hok
      rw [fetchPlaylistResult, e]
      simp only [hok]
      norm_num
    · intro code hcode hne
      rw [fetchPlaylistResult, e]
      simp only [hcode]
      rw [if_pos hne]
  by_cases h1 : isTransient (oracle 1) = true
  · by_cases h2 : isTransient (oracle 2) = true
    · have e : runAttempts oracle attemptSchedule = (3, [2, 4], oracle 3) := by
        rw [attemptSchedule, runAttempts_cons_retry oracle 1 2 [3] h1,
          runAttempts_cons_retry oracle 2 3 [] h2, runAttempts_single]
      have hcount : fetchAttemptCount oracle = 3 := by rw [fetchAttemptCount, e]
      have hlast : fetchLastResult oracle = oracle 3 := by rw [fetchLastResult, e]
      have hrest := hmatch 3 (by rw [e])
      refine ⟨le_of_eq hcount, ?_, ?_, ?_, ?_, ?_, ?_⟩
      · intro i hge hlt
        rw [hcount] at hlt
        interval_cases i
        · exact h1
        · exact h2
      · rw [fetchWaits, e, hcount]
        rfl
      · rw [hlast, hcount]
      · rw [hcount]
        exact hrest.1
      · intro ⟨_, _, h3⟩
        rcases h3o : oracle 3 with _ | code
        · refine ⟨.network, ?_⟩
          rw [fetchPlaylistResult, e]
          simp only [h3o]
        · refine ⟨.httpStatus code, ?_⟩
          rw [h3o] at h3
          have hcode : code = 502 ∨ code = 504 := by
            simpa [isTransient] using h3
          exact hrest.2 code h3o (by omega)
      · intro code hcode hne
        rw [hlast] at hcode
        exact hrest.2 code hcode hne
    · have e : runAttempts oracle attemptSchedule = (2, [2], oracle 2) := by
        rw [attemptSchedule, runAttempts_cons_retry oracle 1 2 [3] h1,
          runAttempts_cons_stop oracle 2 [3] (by simpa using h2)]
      have hcount : fetchAttemptCount oracle = 2 := by rw [fetchAttemptCount, e]
      have hlast : fetchLastResult oracle = oracle 2 := by rw [fetchLastResult, e]
      have hrest := hmatch 2 (by rw [e])
      refine ⟨by omega, ?_, ?_, ?_, ?_, ?_, ?_⟩
      · intro i hge hlt
        rw [hcount] at hlt
        interval_cases i
        exact h1
      · rw [fetchWaits, e, hcount]
        rfl
      · rw [hlast, hcount]
      · rw [hcount]
        exact hrest.1
      · intro ⟨_, hh2, _⟩
        exact absurd hh2 h2
      · intro code hcode hne
        rw [hlast] at hcode
        exact hrest.2 code hcode hne
  · have e : runAttempts oracle attemptSchedule = (1, [], oracle 1) := by
      rw [attemptSchedule, runAttempts_cons_stop oracle 1 [2, 3] (by simpa using h1)]
    have hcount : fetchAttemptCount oracle = 1 := by rw [fetchAttemptCount, e]
    have hlast : fetchLastResult oracle = oracle 1 := by rw [fetchLastResult, e]
    have hrest := hmatch 1 (by rw [e])
    refine ⟨by omega, ?_, ?_, ?_, ?_, ?_, ?_⟩
    · intro i hge hlt
      rw [hcount] at hlt
      omega
    · rw [fetchWaits, e, hcount]
      rfl
    · rw [hlast, hcount]
    · rw [hcount]
      exact hrest.1
    · intro ⟨hh1, _, _⟩
      exact absurd hh1 h1
    · intro code hcode hne
      rw [hlast] at hcode
      exact hrest.2 code hcode hne

/-- **C3 witness**: two 502 responses followed by a 200 — three
attempts, backoffs of 2 s then 4 s, and the 200 on the third attempt is
accepted. -/
theorem c3_fetch_retry_budget_witness :
    fetchAttemptCount (fun i => if i < 3 then .status 502 else .status 200) = 3 ∧
    fetchWaits (fun i => if i < 3 then .status 502 else .status 200) = [2, 4] ∧
    fetchPlaylistResult (fun i => if i < 3 then .status 502 else .status 200) =
      .ok () := by
  obtain ⟨hle, htr, hwaits, hlast, hok, hall, hbad⟩ :=
    c3_fetch_retry_budget (fun i => if i < 3 then .status 502 else .status 200)
  have hcount : fetchAttemptCount
      (fun i => if i < 3 then .status 502 else .status 200) = 3 := by
    rw [fetchAttemptCount, attemptSchedule,
      runAttempts_cons_retry _ 1 2 [3] (by norm_num [isTransient]),
      runAttempts_cons_retry _ 2 3 [] (by norm_num [isTransient]),
      runAttempts_single]
  refine ⟨hcount, ?_, ?_⟩
  · rw [hwaits, hcount]
    rfl
  · apply hok
    rw [hcount]
    norm_num

/-! ## Lemmas: the in-memory dedup filter -/

lemma filterNewSongs_nil (cs gs : List String) :
    filterNewSongs [] cs gs = ([], cs, gs) := rfl

lemma filterNewSongs_cons_invalid (s : Song) (rest : List Song)
    (cs gs : List String) (hv : ¬ s.isValid = true) :
    filterNewSongs (s :: rest) cs gs = filterNewSongs rest cs gs := by
  rw [filterNewSongs]
  rw [if_pos hv]

lemma filterNewSongs_cons_cycle (s : Song) (rest : List Song)
    (cs gs : List String) (hv : s.isValid = true) (hc : seenKey s ∈ cs) :
    filterNewSongs (s :: rest) cs gs = filterNewSongs rest cs gs := by
  rw [filterNewSongs]
  rw [if_neg (by simp [hv]), if_pos hc]

lemma filterNewSongs_cons_global (s : Song) (rest : List Song)
    (cs gs : List String) (hv : s.isValid = true) (hc : seenKey s ∉ cs)
    (hg : seenKey s ∈ gs) :
    filterNewSongs (s :: rest) cs gs = filterNewSongs rest cs gs := by
  rw [filterNewSongs]
  rw [if_neg (by simp [hv]), if_neg hc, if_pos hg]

lemma filterNewSongs_cons_new (s : Song) (rest : List Song)
    (cs gs : List String) (hv : s.isValid = true) (hc : seenKey s ∉ cs)
    (hg : seenKey s ∉ gs) :
    filterNewSongs (s :: rest) cs gs =
      (s :: (filterNewSongs rest (seenKey s :: cs) (seenKey s :: gs)).1,
        (filterNewSongs rest (seenKey s :: cs) (seenKey s :: gs)).2.1,
        (filterNewSongs rest (seenKey s :: cs) (seenKey s :: gs)).2.2) := by
  rw [filterNewSongs]
  rw [if_neg (by simp [hv]), if_neg hc, if_neg hg]

/-- When every valid record's key is already in the process-lifetime
map, the filter returns no songs and leaves both maps untouched. -/
lemma filterNewSongs_all_seen (songs : List Song) (cs gs : List String)
    (h : ∀ s ∈ songs, s.isValid = true → seenKey s ∈ gs) :
    filterNewSongs songs cs gs = ([], cs, gs) := by
  induction songs generalizing cs with
  | nil => rfl
  | cons s rest ih =>
    have hrest : ∀ t ∈ rest, t.isValid = true → seenKey t ∈ gs :=
      fun t ht => h t (List.mem_cons_of_mem s ht)
    by_cases hv : s.isValid = true
    · by_cases hc : seenKey s ∈ cs
      · rw [filterNewSongs_cons_cycle s rest cs gs hv hc]
        exact ih cs hrest
      · rw [filterNewSongs_cons_global s rest cs gs hv hc
          (h s (List.mem_cons_self s rest) hv)]
        exact ih cs hrest
    · rw [filterNewSongs_cons_invalid s rest cs gs hv]
      exact ih cs hrest

/-- Running the filter with identical cycle and process-lifetime maps
keeps them identical, only grows them, and ends with every valid
record's key present. -/
lemma filterNewSongs_same (songs : List Song) (c : List String) :
    (filterNewSongs songs c c).2.1 = (filterNewSongs songs c c).2.2 ∧
    (∀ k ∈ c, k ∈ (filterNewSongs songs c c).2.2) ∧
    (∀ s ∈ songs, s.isValid = true →
      seenKey s ∈ (filterNewSongs songs c c).2.2) := by
  induction songs generalizing c with
  | nil => exact ⟨rfl, fun k hk => hk, by simp⟩
  | cons s rest ih =>
    by_cases hv : s.isValid = true
    · by_cases hc : seenKey s ∈ c
      · rw [filterNewSongs_cons_cycle s rest c c hv hc]
        obtain ⟨ih1, ih2, ih3⟩ := ih c
        refine ⟨ih1, ih2, ?_⟩
        intro t ht htv
        rcases List.mem_cons.mp ht with rfl | ht2
        · exact ih2 (seenKey t) hc
        · exact ih3 t ht2 htv
      · rw [filterNewSongs_cons_new s rest c c hv hc hc]
        obtain ⟨ih1, ih2, ih3⟩ := ih (seenKey s :: c)
        refine ⟨ih1, ?_, ?_⟩
        · intro k hk
          exact ih2 k (List.mem_cons_of_mem _ hk)
        · intro t ht htv
          rcases List.mem_cons.mp ht with rfl | ht2
          · exact ih2 (seenKey t) (List.mem_cons_self _ _)
          · exact ih3 t ht2 htv
    · rw [filterNewSongs_cons_invalid s rest c c hv]
      obtain ⟨ih1, ih2, ih3⟩ := ih c
      refine ⟨ih1, ih2, ?_⟩
      intro t ht htv
      rcases List.mem_cons.mp ht with rfl | ht2
      · exact absurd htv hv
      · exact ih3 t ht2 htv

/-- On a feed whose valid records carry pairwise-distinct keys, a run
whose maps contain none of those keys returns exactly the valid
records, in feed order. -/
lemma filterNewSongs_all_new (songs : List Song) (cs gs : List String)
    (hnd : ((songs.filter (fun s => s.isValid)).map seenKey).Nodup)
    (hfresh : ∀ s ∈ songs, s.isValid = true →
      seenKey s ∉ cs ∧ seenKey s ∉ gs) :
    (filterNewSongs songs cs gs).1 = songs.filter (fun s => s.isValid) := by
  induction songs generalizing cs gs with
  | nil => rfl
  | cons s rest ih =>
    by_cases hv : s.isValid = true
    · obtain ⟨hc, hg⟩ := hfresh s (List.mem_cons_self s rest) hv
      rw [filterNewSongs_cons_new s rest cs gs hv hc hg]
      rw [List.filter_cons_of_pos hv] at hnd ⊢
      rw [List.map_cons, List.nodup_cons] at hnd
      have hrest : (filterNewSongs rest (seenKey s :: cs) (seenKey s :: gs)).1 =
          rest.filter (fun s => s.isValid) := by
        apply ih _ _ hnd.2
        intro t ht htv
        have hmem : seenKey t ∈ (rest.filter (fun s => s.isValid)).map seenKey :=
          List.mem_map_of_mem seenKey (List.mem_filter.mpr ⟨ht, htv⟩)
        have hne : seenKey t ≠ seenKey s := by
          intro habs
          rw [habs] at hmem
          exact hnd.1 hmem
        obtain ⟨htc, htg⟩ := hfresh t (List.mem_cons_of_mem s ht) htv
        constructor
        · intro habs
          rcases List.mem_cons.mp habs with h | h
          · exact hne h
          · exact htc h
        · intro habs
          rcases List.mem_cons.mp habs with h | h
          · exact hne h
          · exact htg h
      rw [hrest]
    · rw [filterNewSongs_cons_invalid s rest cs gs hv]
      rw [List.filter_cons_of_neg (by simpa using hv)] at hnd ⊢
      exact ih cs gs hnd (fun t ht => hfresh t (List.mem_cons_of_mem s ht))

/-- **C2 counterexample.** The claim fails as stated: over a feed
holding two *distinct* valid records with the same `"artist - title"`
key (same artist and title, different albums), the first cycle's
`filterNewSongs` does not return every valid song — the second record is
filtered by the cycle map the first record just populated. -/
theorem c2_cross_cycle_dedup_cex :
    (⟨"A", "T", "y", ""⟩ : Song).isValid = true ∧
    (⟨"A", "T", "y", ""⟩ : Song) ∈
      ([⟨"A", "T", "x", ""⟩, ⟨"A", "T", "y", ""⟩] : List Song) ∧
    (⟨"A", "T", "y", ""⟩ : Song) ∉
      (filterNewSongs [⟨"A", "T", "x", ""⟩, ⟨"A", "T", "y", ""⟩] [] []).1 := by
  refine ⟨by decide, by decide, ?_⟩
  have he : filterNewSongs
      [(⟨"A", "T", "x", ""⟩ : Song), ⟨"A", "T", "y", ""⟩] [] [] =
      ([⟨"A", "T", "x", ""⟩], ["A - T"], ["A - T"]) := by
    rw [filterNewSongs_cons_new _ _ _ _ (by decide) (by decide) (by decide)]
    rw [show seenKey (⟨"A", "T", "x", ""⟩ : Song) = "A - T" from rfl]
    rw [filterNewSongs_cons_cycle _ _ _ _ (by decide) (by decide)]
    rfl
  rw [he]
  decide

/-- **C2 (amended).** In one process whose lifetime map starts empty,
over feed content whose valid records carry pairwise-distinct
`"artist - title"` keys (records repeating a key inside the feed are
deduplicated within the cycle): the first cycle's `filterNewSongs`, run
with a fresh cycle map, returns exactly the valid songs and records
every valid song's key in both the cycle map and the process-lifetime
map; a second identical cycle, run with a fresh cycle map against the
lifetime map the first cycle produced, returns zero songs. -/
theorem c2_cross_cycle_dedup_amended (songs : List Song)
    (hnd : ((songs.filter (fun s => s.isValid)).map seenKey).Nodup) :
    (filterNewSongs songs [] []).1 = songs.filter (fun s => s.isValid) ∧
    (∀ s ∈ songs, s.isValid = true →
      seenKey s ∈ (filterNewSongs songs [] []).2.1 ∧
      seenKey s ∈ (filterNewSongs songs [] []).2.2) ∧
    (filterNewSongs songs [] (filterNewSongs songs [] []).2.2).1 = [] := by
  obtain ⟨hsame, _, hall⟩ := filterNewSongs_same songs []
  refine ⟨?_, ?_, ?_⟩
  · exact filterNewSongs_all_new songs [] [] hnd (by simp)
  · intro s hs hv
    refine ⟨?_, hall s hs hv⟩
    rw [hsame]
    exact hall s hs hv
  · rw [filterNewSongs_all_seen songs [] (filterNewSongs songs [] []).2.2
      (fun s hs hv => hall s hs hv)]

/-- **C2 witness**: a two-record feed with distinct keys (and one
whitespace-only-album record): the first cycle returns both records and
fills both maps; the second cycle returns nothing. -/
theorem c2_cross_cycle_dedup_amended_witness :
    (filterNewSongs [⟨"A", "T", "x", ""⟩, ⟨"B", "U", "", ""⟩] [] []).1 =
      ([⟨"A", "T", "x", ""⟩, ⟨"B", "U", "", ""⟩] : List Song).filter
        (fun s => s.isValid) ∧
    (∀ s ∈ ([⟨"A", "T", "x", ""⟩, ⟨"B", "U", "", ""⟩] : List Song),
      s.isValid = true →
      seenKey s ∈
        (filterNewSongs [⟨"A", "T", "x", ""⟩, ⟨"B", "U", "", ""⟩] [] []).2.1 ∧
      seenKey s ∈
        (filterNewSongs [⟨"A", "T", "x", ""⟩, ⟨"B", "U", "", ""⟩] [] []).2.2) ∧
    (filterNewSongs [⟨"A", "T", "x", ""⟩, ⟨"B", "U", "", ""⟩] []
      (filterNewSongs [⟨"A", "T", "x", ""⟩, ⟨"B", "U", "", ""⟩] [] []).2.2).1 =
      [] :=
  c2_cross_cycle_dedup_amended
    [⟨"A", "T", "x", ""⟩, ⟨"B", "U", "", ""⟩] (by decide)

/-- **C10.** Every song the feed ingestion parser emits has artist,
title and album free of leading/trailing whitespace and a non-empty
artist and title; a feed entry whose artist or track name trims to the
empty string is never emitted — even though a `Song` with a
whitespace-only field would, by itself, satisfy `Song.IsValid`. -/
theorem c10_parse_trimming :
    (∀ raws : List RawTrack, ∀ s ∈ parseResponse raws,
      trimStr s.artist = s.artist ∧ trimStr s.title = s.title ∧
      trimStr s.album = s.album ∧ s.artist ≠ "" ∧ s.title ≠ "") ∧
    (∀ a t c st raw, (trimStr a = "" ∨ trimStr t = "") →
      parseResponse [RawTrack.fields a t c st raw] = []) ∧
    (⟨" ", "y", "", ""⟩ : Song).isValid = true := by
  refine ⟨?_, ?_, by decide⟩
  · intro raws s hs
    rw [parseResponse] at hs
    rw [List.mem_filter] at hs
    obtain ⟨hmem, hval⟩ := hs
    obtain ⟨raw, _, hparse⟩ := List.mem_filterMap.mp hmem
    cases raw with
    | malformed => simp [parseTrackObject] at hparse
    | fields a t c st r =>
      rw [parseTrackObject] at hparse
      by_cases hcond : a ≠ "" ∧ t ≠ ""
      · rw [if_pos hcond] at hparse
        have hseq := Option.some.inj hparse
        rw [← hseq] at hval ⊢
        rw [mapTrackToSong]
        refine ⟨trimStr_idem a, trimStr_idem t, trimStr_idem c, ?_, ?_⟩
        · simp only [mapTrackToSong, Song.isValid, Bool.and_eq_true,
            bne_iff_ne] at hval
          exact hval.1
        · simp only [mapTrackToSong, Song.isValid, Bool.and_eq_true,
            bne_iff_ne] at hval
          exact hval.2
      · rw [if_neg hcond] at hparse
        exact absurd hparse (by simp)
  · intro a t c st raw hor
    rw [parseResponse]
    by_cases hcond : a ≠ "" ∧ t ≠ ""
    · have hsome : parseTrackObject (.fields a t c st raw) =
          some (mapTrackToSong a t c raw) := by
        rw [parseTrackObject, if_pos hcond]
      rw [show ([RawTrack.fields a t c st raw]).filterMap parseTrackObject =
          [mapTrackToSong a t c raw] from by
        rw [List.filterMap_cons, hsome]
        rfl]
      apply List.filter_cons_of_neg
      rcases hor with h | h
      · simp [Song.isValid, mapTrackToSong, h]
      · simp [Song.isValid, mapTrackToSong, h]
    · have hnone : parseTrackObject (.fields a t c st raw) = none := by
        rw [parseTrackObject, if_neg hcond]
      rw [show ([RawTrack.fields a t c st raw]).filterMap parseTrackObject =
          [] from by
        rw [List.filterMap_cons, hnone]
        rfl]
      rfl

/-- **C10 witness**: a concrete feed entry with padded names parses into
a trimmed, valid song, and a whitespace-artist entry yields nothing. -/
theorem c10_parse_trimming_witness :
    (trimStr "Miles" = "Miles" ∧ trimStr "So What" = "So What" ∧
      trimStr "Blue" = "Blue" ∧ ("Miles" : String) ≠ "" ∧
      ("So What" : String) ≠ "") ∧
    parseResponse [RawTrack.fields " " "x" "" "" ""] = [] := by
  constructor
  · have h := c10_parse_trimming.1
      [RawTrack.fields " Miles " " So What " " Blue " "" "raw"]
      ⟨"Miles", "So What", "Blue", "raw"⟩ ?_
    · exact h
    · show _ ∈ parseResponse _
      have : parseResponse [RawTrack.fields " Miles " " So What " " Blue " "" "raw"] =
          [⟨"Miles", "So What", "Blue", "raw"⟩] := by decide
      rw [this]
      exact List.mem_singleton.mpr rfl
  · exact c10_parse_trimming.2.1 " " "x" "" "" "" (Or.inl (by decide))
